import Mathlib

/-!
Shallow embedding of `repositoryLib.py` (class `Repository` and its nested
`AuthCallback`), together with theorems settling the spec claims.

External collaborators (the pygit2 engine, the paramiko SSH-config parser,
the secret store, the cryptography key loader, the file system and the
network) are modelled as explicit parameters or oracles; the control flow,
constants and data manipulation of `repositoryLib.py` itself are translated
line by line.
-/

namespace RepositoryLib

/-! ## pygit2 status constants (libgit2 values) -/

def GIT_STATUS_CURRENT : Nat := 0

def GIT_STATUS_INDEX_NEW : Nat := 1

def GIT_STATUS_INDEX_MODIFIED : Nat := 2

def GIT_STATUS_INDEX_DELETED : Nat := 4

def GIT_STATUS_WT_NEW : Nat := 128

def GIT_STATUS_WT_MODIFIED : Nat := 256

def GIT_STATUS_WT_DELETED : Nat := 512

def GIT_STATUS_IGNORED : Nat := 16384

def GIT_STATUS_CONFLICTED : Nat := 32768

/-! ## pygit2 merge-analysis constants (libgit2 values) -/

def GIT_MERGE_ANALYSIS_NORMAL : Nat := 1

def GIT_MERGE_ANALYSIS_UP_TO_DATE : Nat := 2

def GIT_MERGE_ANALYSIS_FASTFORWARD : Nat := 4

def GIT_MERGE_ANALYSIS_UNBORN : Nat := 8

/-- `Repository.MASTER_REF` from the source. -/
def MASTER_REF : String := "refs/heads/master"

/-! ## The `Repository.Status` enum -/

/-- The members of the `Repository.Status` enum class. -/
inductive Status where
  | kConflicted
  | kCurrent
  | kIgnored
  | kIndexDeleted
  | kIndexModified
  | kIndexNew
  | kWorkingTreeDeleted
  | kWorkingTreeModified
  | kWorkingTreeNew
deriving DecidableEq, Repr

/-- The string value each `Repository.Status` member is bound to in the source. -/
def Status.label : Status → String
  | .kConflicted => "Conflicted"
  | .kCurrent => "Current"
  | .kIgnored => "Ignored"
  | .kIndexDeleted => "Index deleted"
  | .kIndexModified => "Index modified"
  | .kIndexNew => "New Index"
  | .kWorkingTreeDeleted => "Working tree deleted"
  | .kWorkingTreeModified => "Working tree modified"
  | .kWorkingTreeNew => "New working tree"

/-- `Repository.gitStatus` (lines 827-859): builds the result list by the
fixed sequence of checks; the first check is an equality against
`GIT_STATUS_CURRENT` (which is `0`), the rest are bitmask tests. -/
def gitStatus (status : Nat) : List Status :=
  (if status = GIT_STATUS_CURRENT then [Status.kCurrent] else [])
  ++ (if status &&& GIT_STATUS_CONFLICTED ≠ 0 then [Status.kConflicted] else [])
  ++ (if status &&& GIT_STATUS_IGNORED ≠ 0 then [Status.kIgnored] else [])
  ++ (if status &&& GIT_STATUS_INDEX_DELETED ≠ 0 then [Status.kIndexDeleted] else [])
  ++ (if status &&& GIT_STATUS_INDEX_MODIFIED ≠ 0 then [Status.kIndexModified] else [])
  ++ (if status &&& GIT_STATUS_INDEX_NEW ≠ 0 then [Status.kIndexNew] else [])
  ++ (if status &&& GIT_STATUS_WT_DELETED ≠ 0 then [Status.kWorkingTreeDeleted] else [])
  ++ (if status &&& GIT_STATUS_WT_MODIFIED ≠ 0 then [Status.kWorkingTreeModified] else [])
  ++ (if status &&& GIT_STATUS_WT_NEW ≠ 0 then [Status.kWorkingTreeNew] else [])

/-! ## String helpers used by the embedding -/

/-- Whether `pat` is an initial segment of `l` (character lists). -/
def beginsWith : List Char → List Char → Bool
  | _, [] => true
  | [], _ :: _ => false
  | a :: as, b :: bs => a = b && beginsWith as bs

/-- Whether `pat` occurs contiguously inside `l`; embeds Python's
substring test `pat in s`. -/
def containsSeq : List Char → List Char → Bool
  | [], pat => beginsWith [] pat
  | l@(_ :: rest), pat => beginsWith l pat || containsSeq rest pat

/-- Python's `pat in s` on strings. -/
def strContains (s pat : String) : Bool :=
  containsSeq s.data pat.data

/-! ## `Repository.AuthCallback.getSSHConfig` (lines 141-163)

The paramiko parse/lookup of the configuration file is an external
collaborator, abstracted as the `lookupHost` argument; the file system is
abstracted as the `configFileExists` flag. The URL normalisation
(`re.search` for a scheme, `ssh://` prefixing) and the
`urlparse(url).hostname` extraction are embedded below. -/

/-- A character the Python regex class `\w` matches (ASCII inputs). -/
def isWordChar (c : Char) : Bool :=
  c.isAlpha || c.isDigit || c = '_'

/-- Embeds `re.search(r'^\w+://', url)`: a non-empty run of word characters
at the start of the string, immediately followed by `://`. -/
def hasScheme (url : String) : Bool :=
  let w := url.data.takeWhile isWordChar
  !w.isEmpty && beginsWith (url.data.drop w.length) "://".data

/-- The characters after the first occurrence of `://`, if any. -/
def afterSchemeSep : List Char → Option (List Char)
  | [] => none
  | ':' :: '/' :: '/' :: rest => some rest
  | _ :: rest => afterSchemeSep rest

/-- Embeds Python 2 `urlparse.urlparse(url).hostname` for URLs of the form
`scheme://...`: the netloc is the run after `://` up to the first `/`, `?`
or `#`; the hostname is the netloc with any user-info part (up to the last
`@`) and any `:port` suffix removed, lower-cased; `None` when empty. -/
def urlHostname (url : String) : Option String :=
  match afterSchemeSep url.data with
  | none => none
  | some rest =>
    let netloc := rest.takeWhile fun c => !(c = '/' || c = '?' || c = '#')
    let afterAt := (netloc.reverse.takeWhile (· ≠ '@')).reverse
    let host := afterAt.takeWhile (· ≠ ':')
    if host.isEmpty then none else some (String.mk (host.map Char.toLower))

/-- Errors raised by the embedded methods, mirroring the Python exception
sites of `repositoryLib.py`. -/
inductive RepoErr where
  /-- `ValueError("The given URL is invalid.")` in `getSSHConfig`. -/
  | invalidURL
  /-- `RuntimeError('Failed to get password for ssh private key: ...')`. -/
  | secretUnavailable
  /-- `ValueError('Failed to decrypt private key, ...')`. -/
  | decryptFailed
  /-- Python `AttributeError` from calling `.target`/`.set_target` on `None`. -/
  | attributeError
  /-- `ValueError("Cannot merge a branch to itself.")` in `merge`. -/
  | valueSelfMerge
  /-- `ValueError('The HEAD of the current repository is "unborn" ...')` in `pull`. -/
  | valueUnborn
  /-- `ValueError('Unknown merge analysis result')` in `pull`. -/
  | valueUnknownAnalysis
  /-- `KeyError` raised by `pygit2.Repository.lookup_reference` on a missing ref. -/
  | keyError (refname : String)
  /-- `RuntimeError("Conflicts occurred.")` in `pull`. -/
  | runtimeConflicts
  /-- `ValueError("Commit message should not be empty.")` in `createCommit`. -/
  | valueEmptyMessage
deriving DecidableEq, Repr

/-- Whether the error belongs to the spec's *precondition* taxonomy class
(merge on unborn HEAD, self-merge). -/
def RepoErr.isPrecondition : RepoErr → Bool
  | .valueUnborn => true
  | .valueSelfMerge => true
  | _ => false

/-- File-system accesses `getSSHConfig` performs, in order. -/
inductive FSEvent where
  /-- The `os.path.isfile(configFile)` existence check. -/
  | statConfig
  /-- Opening and parsing `~/.ssh/config`. -/
  | readConfig
deriving DecidableEq, Repr

/-- A host profile: the dict paramiko's `lookup` returns (lower-cased keys,
each mapped to a value list, as with `identityfile`). -/
abbrev HostProfile := List (String × List String)

/-- `Repository.AuthCallback.getSSHConfig` (lines 141-163). Returns the
result (or the raised error) together with the trace of file-system
accesses, in the order the source performs them: the existence check comes
first and an absent file returns `{}` at once; only when the file exists is
it read, the URL normalised, and the hostname extracted — with
`ValueError` when no hostname can be extracted. -/
def getSSHConfig (configFileExists : Bool) (lookupHost : String → HostProfile)
    (url : String) : Except RepoErr HostProfile × List FSEvent :=
  if !configFileExists then
    (.ok [], [.statConfig])
  else
    let url' := if !hasScheme url then "ssh://" ++ url else url
    match urlHostname url' with
    | none => (.error .invalidURL, [.statConfig, .readConfig])
    | some hostName => (.ok (lookupHost hostName), [.statConfig, .readConfig])

/-! ## `Repository.AuthCallback.generateKeypair` (lines 172-216) -/

/-- Secret-store interactions the resolver performs. -/
inductive KSEvent where
  /-- `Keystore.getPassword('brGit.repositoryLib.AuthCallback', privKey, ask=True, ...)`. -/
  | getPassword
  /-- `Keystore.deletePassword('brGit.repositoryLib.AuthCallback', privKey)`. -/
  | deletePassword
deriving DecidableEq, Repr

/-- The `pygit2.credentials.Keypair` the resolver returns. -/
structure Keypair where
  username : String
  pubKey : String
  privKey : String
  passPhrase : Option String
deriving DecidableEq, Repr

/-- The fixed retry budget (`maxTries = 5` in the source). -/
def maxTries : Nat := 5

/-- The `for tryNum in range(maxTries)` loop of `generateKeypair`.
`getPassword n` is the secret store's answer on attempt `n` (an oracle for
the external keystore), `unlock p` whether `load_pem_private_key` accepts
passphrase `p`. `fuel` counts the iterations the `range` still yields and
`passPhrase` is the loop variable's current value (`None` initially). The
fuel-exhausted case is the `for` loop falling through without `break`,
which leaves `passPhrase` as is (unreachable for `maxTries = 5`). -/
def passphraseLoop (getPassword : Nat → Option String) (unlock : String → Bool)
    (passPhrase : Option String) (tryNum : Nat) :
    Nat → Except RepoErr (Option String) × List KSEvent
  | 0 => (.ok passPhrase, [])
  | fuel + 1 =>
    match getPassword tryNum with
    | none => (.error .secretUnavailable, [.getPassword])
    | some p =>
      if unlock p then
        (.ok (some p), [.getPassword])
      else if tryNum = maxTries - 1 then
        (.error .decryptFailed, [.getPassword, .deletePassword])
      else
        let rest := passphraseLoop getPassword unlock passPhrase (tryNum + 1) fuel
        (rest.1, .getPassword :: .deletePassword :: rest.2)

/-- `Repository.AuthCallback.generateKeypair` (lines 172-216). `keyContents`
is what reading `privKey` yields; `getPassword`/`unlock` are the external
secret store and key-decryption collaborators. Returns the keypair (or the
raised error) with the trace of secret-store interactions. -/
def generateKeypair (username privKey keyContents : String)
    (getPassword : Nat → Option String) (unlock : String → Bool) :
    Except RepoErr Keypair × List KSEvent :=
  if strContains keyContents "ENCRYPTED" then
    match passphraseLoop getPassword unlock none 0 maxTries with
    | (.error e, evs) => (.error e, evs)
    | (.ok pp, evs) => (.ok ⟨username, privKey ++ ".pub", privKey, pp⟩, evs)
  else
    (.ok ⟨username, privKey ++ ".pub", privKey, none⟩, [])

/-! ## `Repository.AuthCallback.push_update_reference` (lines 131-133) -/

/-- `push_update_reference`: unconditionally raises
`RuntimeError("Failed to push {0} to remote: {1}".format(refname, message))`,
aborting the push. The embedded result carries the exception message. -/
def push_update_reference (refname message : String) : Except String Unit :=
  .error ("Failed to push " ++ refname ++ " to remote: " ++ message)

/-! ## Repository state

The pygit2 engine's observable state, as far as the embedded methods touch
it: the ref store (ref name to commit id), the symbolic `HEAD` (the name of
the checked-out branch ref), the commit the working tree matches, and the
commit objects in the object database. Commit ids are `Nat`. -/

/-- A commit object in the object database. -/
structure GitCommit where
  id : Nat
  message : String
  parents : List Nat
deriving DecidableEq, Repr

/-- The engine state an embedded `Repository` instance operates on. -/
structure RepoState where
  /-- Direct refs: name to commit id (`refs/heads/...`, `refs/remotes/...`). -/
  refs : List (String × Nat)
  /-- The ref the symbolic `HEAD` points to (e.g. `refs/heads/master`). -/
  headRef : String
  /-- The commit the working tree currently matches. -/
  worktree : Nat
  /-- Commit objects in the object database. -/
  commits : List GitCommit
deriving DecidableEq, Repr

/-- First-match lookup in the ref store. -/
def refLookup : List (String × Nat) → String → Option Nat
  | [], _ => none
  | (n, t) :: rest, name => if n = name then some t else refLookup rest name

/-- `pygit2.Repository.lookup_reference(name).target`, as a partial lookup:
`none` is the engine raising `KeyError`. -/
def lookupReference (s : RepoState) (name : String) : Option Nat :=
  refLookup s.refs name

/-- Writing a ref target (`Reference.set_target`, and ref creation by
`create_commit 'HEAD'` on an unborn branch). -/
def setRef (refs : List (String × Nat)) (name : String) (id : Nat) :
    List (String × Nat) :=
  if (refLookup refs name).isSome then
    refs.map fun p => if p.1 = name then (name, id) else p
  else
    refs ++ [(name, id)]

/-- `pygit2.Repository.head_is_unborn`: `HEAD` points to a ref that does
not exist yet. -/
def head_is_unborn (s : RepoState) : Bool :=
  (lookupReference s s.headRef).isNone

/-- `Repository.head` (lines 377-382): `self._repository.head` resolves the
symbolic `HEAD` to the branch ref and its target; on an unborn `HEAD` the
engine raises `GitError`, which the method catches and turns into `None`. -/
def head (s : RepoState) : Option (String × Nat) :=
  match lookupReference s s.headRef with
  | none => none
  | some t => some (s.headRef, t)

/-- `shorthand` of a ref name, as pygit2 shows it for local branches. -/
def shorthand (name : String) : String :=
  if beginsWith name.data "refs/heads/".data then
    String.mk (name.data.drop 11)
  else name

/-- `Repository.currentBranch` (lines 363-368). -/
def currentBranch (s : RepoState) : Option String :=
  match head s with
  | none => none
  | some (n, _) => some (shorthand n)

/-- `'{}'.format(self.currentBranch())`: Python formats `None` as the
string `None`. -/
def currentBranchStr (s : RepoState) : String :=
  match currentBranch s with
  | none => "None"
  | some b => b

/-- Engine/network effects the embedded methods trigger, in order. -/
inductive GitEvent where
  /-- `Remote.fetch` for the named remote. -/
  | fetch (remote : String)
  /-- `Repository.checkout_tree` to the given commit. -/
  | checkoutTree (id : Nat)
  /-- The engine's three-way merge `pygit2.Repository.merge(commitID)`. -/
  | engineMerge (id : Nat)
  /-- The engine's `create_commit` producing the given commit id. -/
  | engineCreateCommit (id : Nat)
  /-- `Repository.state_cleanup()`. -/
  | stateCleanup
deriving DecidableEq, Repr

/-- Result of running an embedded stateful method: the returned value or
raised error, the state after the call (mutations made before a raise are
kept, as in Python), and the engine/network effects in order. -/
structure Outcome (α : Type) where
  result : Except RepoErr α
  state : RepoState
  events : List GitEvent
deriving Repr

/-- `Repository.merge` (lines 623-629): `headID = self.head().target` — on
an unborn `HEAD`, `head()` is `None` and the attribute access raises
`AttributeError`; a target equal to `HEAD` raises
`ValueError("Cannot merge a branch to itself.")`; otherwise the engine's
three-way merge is invoked (its index/working-tree effects belong to the
external engine and are recorded as an event). -/
def merge (s : RepoState) (commitID : Nat) : Outcome Unit :=
  match head s with
  | none => ⟨.error .attributeError, s, []⟩
  | some (_, headID) =>
    if headID = commitID then
      ⟨.error .valueSelfMerge, s, []⟩
    else
      ⟨.ok (), s, [.engineMerge commitID]⟩

/-- `Repository.createCommit` (lines 556-576). `newId` is the commit id the
engine mints. An empty message raises `ValueError`; the parent list is `[]`
when `HEAD` is unborn and `[self.head().target]` otherwise; the engine's
`create_commit('HEAD', ...)` stores the commit object and points the ref
`HEAD` designates at it (creating the ref on a first commit). The
signature/index-tree plumbing belongs to the external engine. -/
def createCommit (s : RepoState) (commitMessage : String) (newId : Nat) :
    Outcome Nat :=
  if commitMessage = "" then
    ⟨.error .valueEmptyMessage, s, []⟩
  else
    let parent : List Nat :=
      if head_is_unborn s then []
      else
        match head s with
        | none => []
        | some (_, t) => [t]
    let c : GitCommit := ⟨newId, commitMessage, parent⟩
    ⟨.ok newId,
      { s with
        commits := s.commits ++ [c],
        refs := setRef s.refs s.headRef newId },
      [.engineCreateCommit newId]⟩

/-- `Repository.pull` (lines 642-683), from after the fetch: the fetch is
the external network collaborator (recorded as an event; the
remote-tracking refs it wrote are part of `s.refs`). `mergeFlags` is the
bitmask `merge_analysis` returned, `indexConflicts` whether the engine's
merge left `index.conflicts` non-empty, and `newCommitId` the id the engine
would mint for a merge commit. The dispatch order and the hard-coded
`MASTER_REF` lookup of the fast-forward branch follow the source. -/
def pull (s : RepoState) (remoteName : String) (mergeCommit : Bool)
    (mergeFlags : Nat) (indexConflicts : Bool) (newCommitId : Nat) :
    Outcome Unit :=
  let evs : List GitEvent := [.fetch remoteName]
  let trackingRef := "refs/remotes/" ++ remoteName ++ "/" ++ currentBranchStr s
  match lookupReference s trackingRef with
  | none => ⟨.error (.keyError trackingRef), s, evs⟩
  | some remoteId =>
    if mergeFlags &&& GIT_MERGE_ANALYSIS_UP_TO_DATE ≠ 0 then
      ⟨.ok (), s, evs⟩
    else if mergeFlags &&& GIT_MERGE_ANALYSIS_FASTFORWARD ≠ 0 then
      let s1 := { s with worktree := remoteId }
      let evs := evs ++ [.checkoutTree remoteId]
      match lookupReference s1 MASTER_REF with
      | none => ⟨.error (.keyError MASTER_REF), s1, evs⟩
      | some _ =>
        let s2 := { s1 with refs := setRef s1.refs MASTER_REF remoteId }
        match head s2 with
        | none => ⟨.error .attributeError, s2, evs⟩
        | some (b, _) => ⟨.ok (), { s2 with refs := setRef s2.refs b remoteId }, evs⟩
    else if mergeFlags &&& GIT_MERGE_ANALYSIS_NORMAL ≠ 0 then
      let m := merge s remoteId
      let evs := evs ++ m.events
      match m.result with
      | .error e => ⟨.error e, m.state, evs⟩
      | .ok _ =>
        if indexConflicts then
          ⟨.error .runtimeConflicts, m.state, evs⟩
        else if mergeCommit then
          let cc := createCommit m.state
            ("Pull from remote of " ++ currentBranchStr m.state) newCommitId
          let evs := evs ++ cc.events
          match cc.result with
          | .error e => ⟨.error e, cc.state, evs⟩
          | .ok _ => ⟨.ok (), cc.state, evs ++ [.stateCleanup]⟩
        else
          ⟨.ok (), m.state, evs ++ [.stateCleanup]⟩
    else if mergeFlags &&& GIT_MERGE_ANALYSIS_UNBORN ≠ 0 then
      ⟨.error .valueUnborn, s, evs⟩
    else
      ⟨.error .valueUnknownAnalysis, s, evs⟩

/-- Well-formedness: every ref points at a commit object that exists. In
particular a repository containing no commits has only dangling-free, i.e.
no, reachable refs. -/
def WF (s : RepoState) : Prop :=
  ∀ p ∈ s.refs, ∃ c ∈ s.commits, c.id = p.2

instance (s : RepoState) : Decidable (WF s) := by
  unfold WF
  infer_instance

/-- The secret-store trace of `n` consecutive failed unlock attempts. -/
def failTrace : Nat → List KSEvent
  | 0 => []
  | n + 1 => .getPassword :: .deletePassword :: failTrace n

/-! ## Helper lemmas -/

theorem mem_ite_singleton {c : Prop} [Decidable c] {x y : Status} :
    x ∈ (if c then [y] else []) ↔ c ∧ x = y := by
  split <;> simp_all

theorem refLookup_mem {l : List (String × Nat)} {name : String} {t : Nat}
    (h : refLookup l name = some t) : (name, t) ∈ l := by
  induction l with
  | nil => simp [refLookup] at h
  | cons p rest ih =>
    obtain ⟨n, v⟩ := p
    by_cases hn : n = name
    · subst hn
      simp [refLookup] at h
      simp [h]
    · simp [refLookup, hn] at h
      exact List.mem_cons_of_mem _ (ih h)

theorem refLookup_map_set {l : List (String × Nat)} {name : String}
    {t id : Nat} (h : refLookup l name = some t) :
    refLookup (l.map fun p => if p.1 = name then (name, id) else p) name =
      some id := by
  induction l with
  | nil => simp [refLookup] at h
  | cons p rest ih =>
    obtain ⟨n, v⟩ := p
    by_cases hn : n = name
    · subst hn
      rw [List.map_cons,
        show (if ((n, v) : String × Nat).1 = n then (n, id) else (n, v)) =
          (n, id) from if_pos rfl]
      show (if n = n then some id else _) = some id
      rw [if_pos rfl]
    · rw [List.map_cons]
      have h1 : ((n, v) : String × Nat).1 = n := rfl
      rw [show (if ((n, v) : String × Nat).1 = name then (name, id) else (n, v)) =
            (n, v) from if_neg (h1 ▸ hn)]
      show (if n = name then some v else _) = some id
      rw [if_neg hn]
      rw [show refLookup ((n, v) :: rest) name = refLookup rest name from
            if_neg hn] at h
      exact ih h

theorem refLookup_setRef_self {l : List (String × Nat)} {name : String}
    {t id : Nat} (h : refLookup l name = some t) :
    refLookup (setRef l name id) name = some id := by
  have hs : (refLookup l name).isSome := by simp [h]
  unfold setRef
  rw [if_pos hs]
  exact refLookup_map_set h

theorem head_eq_some {s : RepoState} {b : String} {t : Nat}
    (h : head s = some (b, t)) :
    b = s.headRef ∧ lookupReference s s.headRef = some t := by
  unfold head at h
  cases hl : lookupReference s s.headRef <;> rw [hl] at h
  · exact absurd h (by simp)
  · cases h
    exact ⟨rfl, rfl⟩

theorem head_is_unborn_false {s : RepoState} {b : String} {t : Nat}
    (h : head s = some (b, t)) : head_is_unborn s = false := by
  obtain ⟨-, hl⟩ := head_eq_some h
  unfold head_is_unborn
  simp [hl]

/-! ## Claim theorems -/

/-- C5: `gitStatus` is a pure function of the flag bitmask: on the combined
bitmask of the eight flags {conflicted, ignored, index-deleted,
index-modified, index-new, working-tree-deleted, working-tree-modified,
working-tree-new} it returns exactly those 8 status labels in the fixed
check order, and on the `current` flag alone it returns exactly the one
label `Current`. -/
theorem gitStatus_bitmask_and_current :
    gitStatus (GIT_STATUS_CONFLICTED ||| GIT_STATUS_IGNORED |||
        GIT_STATUS_INDEX_DELETED ||| GIT_STATUS_INDEX_MODIFIED |||
        GIT_STATUS_INDEX_NEW ||| GIT_STATUS_WT_DELETED |||
        GIT_STATUS_WT_MODIFIED ||| GIT_STATUS_WT_NEW) =
      [Status.kConflicted, Status.kIgnored, Status.kIndexDeleted,
       Status.kIndexModified, Status.kIndexNew, Status.kWorkingTreeDeleted,
       Status.kWorkingTreeModified, Status.kWorkingTreeNew] ∧
    gitStatus GIT_STATUS_CURRENT = [Status.kCurrent] ∧
    (gitStatus GIT_STATUS_CURRENT).map Status.label = ["Current"] := by
  decide

/-- C9: the result of `gitStatus` contains the label `Current` exactly when
the input bitmask equals the `current` flag value (`0`); consequently
`Current` never appears together with any other label. -/
theorem gitStatus_current_iff (s : Nat) :
    (Status.kCurrent ∈ gitStatus s ↔ s = GIT_STATUS_CURRENT) ∧
    (Status.kCurrent ∈ gitStatus s → gitStatus s = [Status.kCurrent]) := by
  by_cases h : s = 0
  · subst h
    refine ⟨by decide, fun _ => by decide⟩
  · have hne : ¬s = GIT_STATUS_CURRENT := by simpa [GIT_STATUS_CURRENT] using h
    constructor
    · simp [gitStatus, hne, List.mem_append, mem_ite_singleton]
    · intro hmem
      exfalso
      revert hmem
      simp [gitStatus, hne, List.mem_append, mem_ite_singleton]

/-- C9 witness: at the concrete input `0` the label `Current` is present
and is the only label. -/
theorem gitStatus_current_iff_witness :
    gitStatus 0 = [Status.kCurrent] :=
  (gitStatus_current_iff 0).2 (by decide)

/-- C6: for every push ref rejection, the callback fails the push with a
remote-rejection error whose message embeds both the rejected ref's name
and the remote's rejection message verbatim. -/
theorem push_update_reference_rejects (refname message : String) :
    ∃ msg, push_update_reference refname message = Except.error msg ∧
      msg.data = "Failed to push ".data ++ refname.data ++
        " to remote: ".data ++ message.data ∧
      (∃ l₁ l₂, msg.data = l₁ ++ refname.data ++ l₂) ∧
      (∃ l₁ l₂, msg.data = l₁ ++ message.data ++ l₂) := by
  refine ⟨"Failed to push " ++ refname ++ " to remote: " ++ message, rfl, ?_, ?_, ?_⟩
  · simp [String.data_append]
  · exact ⟨"Failed to push ".data, " to remote: ".data ++ message.data, by
      simp [String.data_append]⟩
  · exact ⟨"Failed to push ".data ++ refname.data ++ " to remote: ".data, [], by
      simp [String.data_append]⟩

/-- C7: on every repository with a current HEAD commit, merging that very
commit fails with the self-merge precondition error, leaves the state
unchanged, and never invokes the underlying three-way merge. -/
theorem merge_self_rejected (s : RepoState) (b : String) (h : Nat)
    (hh : head s = some (b, h)) :
    merge s h = ⟨.error .valueSelfMerge, s, []⟩ := by
  unfold merge
  rw [hh]
  simp

/-- C7 witness: a concrete one-commit repository, merging its HEAD commit
into itself. -/
theorem merge_self_rejected_witness :
    merge ⟨[("refs/heads/master", 1)], "refs/heads/master", 1,
        [⟨1, "init", []⟩]⟩ 1 =
      ⟨.error .valueSelfMerge,
       ⟨[("refs/heads/master", 1)], "refs/heads/master", 1, [⟨1, "init", []⟩]⟩,
       []⟩ :=
  merge_self_rejected _ "refs/heads/master" 1 rfl

/-- C8: when the key file's contents do not indicate passphrase encryption,
credential resolution succeeds at once, performs no secret-store call at
all, and returns a credential with no passphrase whose public key path is
the private key path with `.pub` appended. -/
theorem generateKeypair_unencrypted (u k c : String)
    (getPassword : Nat → Option String) (unlock : String → Bool)
    (henc : strContains c "ENCRYPTED" = false) :
    generateKeypair u k c getPassword unlock =
      (.ok ⟨u, k ++ ".pub", k, none⟩, []) := by
  unfold generateKeypair
  rw [henc]
  simp

theorem passphraseLoop_storeEmpty (getPassword : Nat → Option String)
    (unlock : String → Bool) (pp : Option String) (tryNum fuel : Nat)
    (hfuel : 0 < fuel) (hnone : getPassword tryNum = none) :
    passphraseLoop getPassword unlock pp tryNum fuel =
      (.error .secretUnavailable, [.getPassword]) := by
  cases fuel with
  | zero => exact absurd hfuel (by omega)
  | succ f =>
    unfold passphraseLoop
    rw [hnone]

theorem passphraseLoop_allfail (getPassword : Nat → Option String)
    (unlock : String → Bool) (hgp : ∀ n, (getPassword n).isSome = true)
    (hul : ∀ p, unlock p = false) (pp : Option String) :
    ∀ fuel tryNum, tryNum + fuel = maxTries → 0 < fuel →
      passphraseLoop getPassword unlock pp tryNum fuel =
        (.error .decryptFailed, failTrace fuel) := by
  intro fuel
  induction fuel with
  | zero => intro tryNum _ h0; exact absurd h0 (by omega)
  | succ f ih =>
    intro tryNum hsum _
    cases hg : getPassword tryNum with
    | none =>
      have := hgp tryNum
      rw [hg] at this
      simp at this
    | some p =>
      unfold passphraseLoop
      rw [hg]
      simp only [hul, Bool.false_eq_true, if_false]
      by_cases hlast : tryNum = maxTries - 1
      · have hf : f = 0 := by
          revert hsum
          unfold maxTries at hlast ⊢
          omega
        subst hf
        rw [if_pos hlast]
        rfl
      · rw [if_neg hlast]
        have hf : 0 < f := by
          revert hsum hlast
          unfold maxTries
          omega
        rw [ih (tryNum + 1) (by omega) hf]
        rfl

/-- C4: for an encrypted key whose candidate passphrases all fail to
unlock it, resolution makes exactly `maxTries = 5` secret-store attempts,
evicting the cached passphrase after every failed attempt — the final one
included — and fails with the decryption error; and whenever the secret
store yields no passphrase on an attempt, the loop fails immediately with
the secret-unavailable error, making no further attempt (in particular on
the very first attempt of a resolution). -/
theorem generateKeypair_retry_policy :
    (∀ u k c getPassword unlock, strContains c "ENCRYPTED" = true →
      (∀ n, ((getPassword : Nat → Option String) n).isSome = true) →
      (∀ p, (unlock : String → Bool) p = false) →
      generateKeypair u k c getPassword unlock =
        (.error .decryptFailed,
         [.getPassword, .deletePassword, .getPassword, .deletePassword,
          .getPassword, .deletePassword, .getPassword, .deletePassword,
          .getPassword, .deletePassword])) ∧
    (∀ getPassword unlock pp tryNum fuel, 0 < fuel →
      (getPassword : Nat → Option String) tryNum = none →
      passphraseLoop getPassword unlock pp tryNum fuel =
        (.error .secretUnavailable, [.getPassword])) ∧
    (∀ u k c getPassword unlock, strContains c "ENCRYPTED" = true →
      (getPassword : Nat → Option String) 0 = none →
      generateKeypair u k c (getPassword : Nat → Option String)
          (unlock : String → Bool) =
        (.error .secretUnavailable, [.getPassword])) := by
  refine ⟨?_, ?_, ?_⟩
  · intro u k c getPassword unlock henc hgp hul
    unfold generateKeypair
    rw [henc]
    simp only [if_true]
    rw [passphraseLoop_allfail getPassword unlock hgp hul none maxTries 0 rfl
      (by unfold maxTries; omega)]
    rfl
  · intro getPassword unlock pp tryNum fuel hfuel hnone
    exact passphraseLoop_storeEmpty getPassword unlock pp tryNum fuel hfuel hnone
  · intro u k c getPassword unlock henc hnone
    unfold generateKeypair
    rw [henc]
    simp only [if_true]
    rw [passphraseLoop_storeEmpty getPassword unlock none 0 maxTries
      (by unfold maxTries; omega) hnone]

/-- C4 witness: a concrete encrypted key with a store that always yields a
wrong passphrase (exhaustion), and one whose store yields nothing (fails
immediately). -/
theorem generateKeypair_retry_policy_witness :
    generateKeypair "git" "/k" "is ENCRYPTED material"
        (fun _ => some "wrong") (fun _ => false) =
      (.error .decryptFailed,
       [.getPassword, .deletePassword, .getPassword, .deletePassword,
        .getPassword, .deletePassword, .getPassword, .deletePassword,
        .getPassword, .deletePassword]) ∧
    generateKeypair "git" "/k" "is ENCRYPTED material"
        (fun _ => none) (fun _ => false) =
      (.error .secretUnavailable, [.getPassword]) :=
  ⟨generateKeypair_retry_policy.1 "git" "/k" "is ENCRYPTED material" _ _
      (by decide) (fun _ => rfl) (fun _ => rfl),
   generateKeypair_retry_policy.2.2 "git" "/k" "is ENCRYPTED material" _ _
      (by decide) rfl⟩

/-- C2 counterexample: for the bare path `/invalid/url.value@` (which has
no extractable hostname) and an absent SSH configuration file, credential
resolution does not fail at all: it returns the empty profile — and the
file-system existence check is performed first. This contradicts the claim
that resolution fails with an input-validation error before any
file-system access regardless of whether the configuration file exists. -/
theorem getSSHConfig_counterexample :
    urlHostname ("ssh://" ++ "/invalid/url.value@") = none ∧
    hasScheme "/invalid/url.value@" = false ∧
    getSSHConfig false (fun _ => []) "/invalid/url.value@" =
      (.ok [], [.statConfig]) :=
  ⟨rfl, rfl, rfl⟩

/-- C2 (amended): when the SSH configuration file exists, credential
resolution on a URL from which no hostname can be extracted fails with the
input-validation error — but only after the file-system existence check
and the read of the configuration file; when the file does not exist, the
empty profile is returned with no error and the URL is never validated. -/
theorem getSSHConfig_invalid_url (lookupHost : String → HostProfile)
    (url : String)
    (hhost : urlHostname (if !hasScheme url then "ssh://" ++ url else url) =
      none) :
    getSSHConfig true lookupHost url =
      (.error .invalidURL, [.statConfig, .readConfig]) := by
  unfold getSSHConfig
  simp only [Bool.not_true, Bool.false_eq_true, if_false]
  rw [hhost]

/-- C2 amended-claim witness: the concrete invalid URL with an existing
configuration file. -/
theorem getSSHConfig_invalid_url_witness :
    getSSHConfig true (fun _ => []) "/invalid/url.value@" =
      (.error .invalidURL, [.statConfig, .readConfig]) :=
  getSSHConfig_invalid_url (fun _ => []) "/invalid/url.value@" rfl

/-- C3 counterexample: on a concrete repository with no commits, a merge
attempt does fail — but with the Python `AttributeError` coming from
`self.head().target` on `None`, which is not the unborn/precondition
error of the spec's taxonomy. -/
theorem merge_unborn_counterexample :
    WF ⟨[], "refs/heads/master", 0, []⟩ ∧
    (⟨[], "refs/heads/master", 0, []⟩ : RepoState).commits = [] ∧
    merge ⟨[], "refs/heads/master", 0, []⟩ 5 =
      ⟨.error .attributeError, ⟨[], "refs/heads/master", 0, []⟩, []⟩ ∧
    RepoErr.attributeError.isPrecondition = false ∧
    RepoErr.attributeError ≠ RepoErr.valueUnborn :=
  ⟨by decide, rfl, rfl, rfl, by decide⟩

/-- C3 (amended): for every well-formed repository containing no commits,
`currentBranch()` and `head()` both report none, and every merge attempt
fails — with the attribute error from dereferencing the absent HEAD
(`None.target`), not with the unborn/precondition error (which only the
pull merge-analysis path raises). -/
theorem unborn_repo_reports (s : RepoState) (hWF : WF s)
    (hc : s.commits = []) :
    currentBranch s = none ∧ head s = none ∧
    ∀ commitID, merge s commitID = ⟨.error .attributeError, s, []⟩ := by
  have hl : lookupReference s s.headRef = none := by
    cases hl : lookupReference s s.headRef with
    | none => rfl
    | some t =>
      exfalso
      have hmem := refLookup_mem hl
      obtain ⟨c, hcmem, -⟩ := hWF _ hmem
      rw [hc] at hcmem
      simp at hcmem
  have hh : head s = none := by
    unfold head
    rw [hl]
  refine ⟨?_, hh, ?_⟩
  · unfold currentBranch
    rw [hh]
  · intro commitID
    unfold merge
    rw [hh]

/-- C3 amended-claim witness: the concrete empty repository. -/
theorem unborn_repo_reports_witness :
    currentBranch ⟨[], "refs/heads/master", 0, []⟩ = none ∧
    merge ⟨[], "refs/heads/master", 0, []⟩ 7 =
      ⟨.error .attributeError, ⟨[], "refs/heads/master", 0, []⟩, []⟩ :=
  ⟨(unborn_repo_reports _ (by decide) rfl).1,
   (unborn_repo_reports _ (by decide) rfl).2.2 7⟩

/-- C8 witness: a concrete unencrypted key file. -/
theorem generateKeypair_unencrypted_witness :
    generateKeypair "git" "/home/u/.ssh/id_rsa" "plain rsa key material"
        (fun _ => some "irrelevant") (fun _ => false) =
      (.ok ⟨"git", "/home/u/.ssh/id_rsa" ++ ".pub", "/home/u/.ssh/id_rsa", none⟩,
       []) :=
  generateKeypair_unencrypted _ _ _ _ _ (by decide)

theorem refLookup_map_other {l : List (String × Nat)} {name name' : String}
    (hne : name' ≠ name) (id : Nat) :
    refLookup (l.map fun p => if p.1 = name then (name, id) else p) name' =
      refLookup l name' := by
  induction l with
  | nil => rfl
  | cons p rest ih =>
    obtain ⟨n, v⟩ := p
    rw [List.map_cons]
    by_cases hn : n = name
    · subst hn
      rw [show (if ((n, v) : String × Nat).1 = n then (n, id) else (n, v)) =
            (n, id) from if_pos rfl]
      show (if n = name' then some id else _) = _
      rw [if_neg fun h => hne h.symm]
      show _ = (if n = name' then some v else refLookup rest name')
      rw [if_neg fun h => hne h.symm]
      exact ih
    · rw [show (if ((n, v) : String × Nat).1 = name then (name, id) else (n, v)) =
            (n, v) from if_neg hn]
      show (if n = name' then some v else _) = (if n = name' then some v else _)
      by_cases hn' : n = name'
      · rw [if_pos hn', if_pos hn']
      · rw [if_neg hn', if_neg hn']
        exact ih

theorem refLookup_append_single {l : List (String × Nat)}
    {name name' : String} (hne : name' ≠ name) (id : Nat) :
    refLookup (l ++ [(name, id)]) name' = refLookup l name' := by
  induction l with
  | nil =>
    show (if name = name' then some id else none) = none
    rw [if_neg fun h => hne h.symm]
  | cons p rest ih =>
    obtain ⟨n, v⟩ := p
    show (if n = name' then some v else _) = (if n = name' then some v else _)
    by_cases hn' : n = name'
    · rw [if_pos hn', if_pos hn']
    · rw [if_neg hn', if_neg hn']
      exact ih

theorem refLookup_setRef_other {l : List (String × Nat)}
    {name name' : String} (hne : name' ≠ name) (id : Nat) :
    refLookup (setRef l name id) name' = refLookup l name' := by
  unfold setRef
  split
  · exact refLookup_map_other hne id
  · exact refLookup_append_single hne id

/-- C10: on a repository whose HEAD is unborn, `createCommit` with a
non-empty message does not fail: it creates a first commit with an empty
parent list; on a repository with a born HEAD, the new commit's sole
parent is the current HEAD commit. -/
theorem createCommit_parents (s : RepoState) (msg : String) (newId : Nat)
    (hmsg : msg ≠ "") :
    (head_is_unborn s = true →
      (createCommit s msg newId).result = .ok newId ∧
      (createCommit s msg newId).state.commits =
        s.commits ++ [⟨newId, msg, []⟩]) ∧
    (∀ b t, head s = some (b, t) →
      (createCommit s msg newId).result = .ok newId ∧
      (createCommit s msg newId).state.commits =
        s.commits ++ [⟨newId, msg, [t]⟩]) := by
  constructor
  · intro hub
    unfold createCommit
    rw [if_neg hmsg, hub]
    exact ⟨rfl, rfl⟩
  · intro b t hh
    have hub := head_is_unborn_false hh
    unfold createCommit
    rw [if_neg hmsg, hub, hh]
    exact ⟨rfl, rfl⟩

/-- C10 witness: a first commit on a concrete empty repository (no
parents) and a second commit on a concrete one-commit repository (sole
parent the HEAD commit). -/
theorem createCommit_parents_witness :
    (createCommit ⟨[], "refs/heads/master", 0, []⟩ "m" 1).state.commits =
      [] ++ [⟨1, "m", []⟩] ∧
    (createCommit ⟨[("refs/heads/master", 1)], "refs/heads/master", 1,
        [⟨1, "m", []⟩]⟩ "n" 2).state.commits =
      [⟨1, "m", []⟩] ++ [⟨2, "n", [1]⟩] :=
  ⟨((createCommit_parents ⟨[], "refs/heads/master", 0, []⟩ "m" 1
      (by decide)).1 rfl).2,
   ((createCommit_parents ⟨[("refs/heads/master", 1)], "refs/heads/master", 1,
      [⟨1, "m", []⟩]⟩ "n" 2 (by decide)).2 "refs/heads/master" 1 rfl).2⟩

/-- C1 counterexample: a fast-forward pull on the checked-out branch `dev`
of a concrete repository with no `refs/heads/master` ref. The merge
analysis resolves as fast-forward (flags `NORMAL|FASTFORWARD`), yet the
pull raises `KeyError` for the hard-coded master ref: the current branch's
ref stays at its old target and only the working tree was updated, so the
claimed behavior does not hold for every checked-out branch. -/
theorem pull_fastforward_counterexample :
    (GIT_MERGE_ANALYSIS_FASTFORWARD ||| GIT_MERGE_ANALYSIS_NORMAL) &&&
      GIT_MERGE_ANALYSIS_UP_TO_DATE = 0 ∧
    (GIT_MERGE_ANALYSIS_FASTFORWARD ||| GIT_MERGE_ANALYSIS_NORMAL) &&&
      GIT_MERGE_ANALYSIS_FASTFORWARD ≠ 0 ∧
    pull ⟨[("refs/heads/dev", 1), ("refs/remotes/origin/dev", 2)],
        "refs/heads/dev", 1, [⟨1, "a", []⟩, ⟨2, "b", [1]⟩]⟩ "origin" false
        (GIT_MERGE_ANALYSIS_FASTFORWARD ||| GIT_MERGE_ANALYSIS_NORMAL)
        false 0 =
      ⟨.error (.keyError MASTER_REF),
       ⟨[("refs/heads/dev", 1), ("refs/remotes/origin/dev", 2)],
        "refs/heads/dev", 2, [⟨1, "a", []⟩, ⟨2, "b", [1]⟩]⟩,
       [.fetch "origin", .checkoutTree 2]⟩ :=
  ⟨rfl, by decide, rfl⟩

/-- C1 (amended): for a pull whose merge analysis resolves as fast-forward
(the up-to-date flag clear, the fast-forward flag set, the remote-tracking
ref present), the source updates the hard-coded `refs/heads/master` ref
rather than the current branch's ref by name. When the checked-out branch
is master, the claimed behavior holds: the working tree is updated to the
remote target, the master ref and HEAD both advance to it, and no commit
object is created. When `refs/heads/master` does not exist the pull fails
with `KeyError` after updating only the working tree, leaving every ref
unchanged; and when the checked-out branch is a different existing branch,
both that branch's ref and, additionally, the hard-coded master ref are
set to the remote target. -/
theorem pull_fastforward_behavior (s : RepoState) (remoteName : String)
    (mergeCommit : Bool) (mergeFlags : Nat) (indexConflicts : Bool)
    (newCommitId remoteId : Nat)
    (hup : mergeFlags &&& GIT_MERGE_ANALYSIS_UP_TO_DATE = 0)
    (hff : mergeFlags &&& GIT_MERGE_ANALYSIS_FASTFORWARD ≠ 0)
    (htrack : lookupReference s
      ("refs/remotes/" ++ remoteName ++ "/" ++ currentBranchStr s) =
        some remoteId) :
    (∀ m, s.headRef = MASTER_REF → lookupReference s MASTER_REF = some m →
      (pull s remoteName mergeCommit mergeFlags indexConflicts
          newCommitId).result = .ok () ∧
      (pull s remoteName mergeCommit mergeFlags indexConflicts
          newCommitId).state.worktree = remoteId ∧
      lookupReference (pull s remoteName mergeCommit mergeFlags
          indexConflicts newCommitId).state MASTER_REF = some remoteId ∧
      head (pull s remoteName mergeCommit mergeFlags indexConflicts
          newCommitId).state = some (MASTER_REF, remoteId) ∧
      (pull s remoteName mergeCommit mergeFlags indexConflicts
          newCommitId).state.commits = s.commits ∧
      (pull s remoteName mergeCommit mergeFlags indexConflicts
          newCommitId).events = [.fetch remoteName, .checkoutTree remoteId]) ∧
    (lookupReference s MASTER_REF = none →
      (pull s remoteName mergeCommit mergeFlags indexConflicts
          newCommitId).result = .error (.keyError MASTER_REF) ∧
      (pull s remoteName mergeCommit mergeFlags indexConflicts
          newCommitId).state.refs = s.refs ∧
      (pull s remoteName mergeCommit mergeFlags indexConflicts
          newCommitId).state.worktree = remoteId ∧
      (pull s remoteName mergeCommit mergeFlags indexConflicts
          newCommitId).state.commits = s.commits) ∧
    (∀ m t, s.headRef ≠ MASTER_REF → lookupReference s MASTER_REF = some m →
      lookupReference s s.headRef = some t →
      (pull s remoteName mergeCommit mergeFlags indexConflicts
          newCommitId).result = .ok () ∧
      lookupReference (pull s remoteName mergeCommit mergeFlags
          indexConflicts newCommitId).state MASTER_REF = some remoteId ∧
      lookupReference (pull s remoteName mergeCommit mergeFlags
          indexConflicts newCommitId).state s.headRef = some remoteId ∧
      (pull s remoteName mergeCommit mergeFlags indexConflicts
          newCommitId).state.commits = s.commits) := by
  refine ⟨?_, ?_, ?_⟩
  · intro m hhead hm
    have hm1 : lookupReference { s with worktree := remoteId } MASTER_REF =
        some m := hm
    have hh2 : head { s with
        worktree := remoteId,
        refs := setRef s.refs MASTER_REF remoteId } =
        some (MASTER_REF, remoteId) := by
      unfold head lookupReference
      show (match refLookup (setRef s.refs MASTER_REF remoteId) s.headRef
        with
        | none => none
        | some t => some (s.headRef, t)) = _
      rw [hhead, refLookup_setRef_self hm]
    have hstep : pull s remoteName mergeCommit mergeFlags indexConflicts
        newCommitId =
        ⟨.ok (),
         { s with
            worktree := remoteId,
            refs := setRef (setRef s.refs MASTER_REF remoteId) MASTER_REF
              remoteId },
         [.fetch remoteName, .checkoutTree remoteId]⟩ := by
      simp [pull, htrack, hup, hff, hm1, hh2]
    have hml2 : refLookup (setRef (setRef s.refs MASTER_REF remoteId)
        MASTER_REF remoteId) MASTER_REF = some remoteId :=
      refLookup_setRef_self (refLookup_setRef_self hm)
    rw [hstep]
    refine ⟨rfl, rfl, hml2, ?_, rfl, rfl⟩
    unfold head lookupReference
    show (match refLookup (setRef (setRef s.refs MASTER_REF remoteId)
        MASTER_REF remoteId) s.headRef with
      | none => none
      | some t => some (s.headRef, t)) = _
    rw [hhead, hml2]
  · intro hm
    have hm1 : lookupReference { s with worktree := remoteId } MASTER_REF =
        none := hm
    have hstep : pull s remoteName mergeCommit mergeFlags indexConflicts
        newCommitId =
        ⟨.error (.keyError MASTER_REF), { s with worktree := remoteId },
         [.fetch remoteName, .checkoutTree remoteId]⟩ := by
      simp [pull, htrack, hup, hff, hm1]
    rw [hstep]
    exact ⟨rfl, rfl, rfl, rfl⟩
  · intro m t hne hm ht
    have hm1 : lookupReference { s with worktree := remoteId } MASTER_REF =
        some m := hm
    have hh2 : head { s with
        worktree := remoteId,
        refs := setRef s.refs MASTER_REF remoteId } =
        some (s.headRef, t) := by
      unfold head lookupReference
      show (match refLookup (setRef s.refs MASTER_REF remoteId) s.headRef
        with
        | none => none
        | some t => some (s.headRef, t)) = _
      rw [refLookup_setRef_other hne remoteId,
        show refLookup s.refs s.headRef = some t from ht]
    have hstep : pull s remoteName mergeCommit mergeFlags indexConflicts
        newCommitId =
        ⟨.ok (),
         { s with
            worktree := remoteId,
            refs := setRef (setRef s.refs MASTER_REF remoteId) s.headRef
              remoteId },
         [.fetch remoteName, .checkoutTree remoteId]⟩ := by
      simp [pull, htrack, hup, hff, hm1, hh2]
    rw [hstep]
    refine ⟨rfl, ?_, ?_, rfl⟩
    · show refLookup (setRef (setRef s.refs MASTER_REF remoteId) s.headRef
        remoteId) MASTER_REF = some remoteId
      rw [refLookup_setRef_other (fun h => hne h.symm) remoteId]
      exact refLookup_setRef_self hm
    · show refLookup (setRef (setRef s.refs MASTER_REF remoteId) s.headRef
        remoteId) s.headRef = some remoteId
      exact refLookup_setRef_self (by
        rw [refLookup_setRef_other hne remoteId]
        exact ht)

/-- C1 amended-claim witness: a concrete fast-forward pull on a repository
whose checked-out branch is master. -/
theorem pull_fastforward_behavior_witness :
    (pull ⟨[("refs/heads/master", 1), ("refs/remotes/origin/master", 2)],
        "refs/heads/master", 1, [⟨1, "a", []⟩, ⟨2, "b", [1]⟩]⟩ "origin" false 5
        false 0).result = .ok () ∧
    lookupReference (pull ⟨[("refs/heads/master", 1),
        ("refs/remotes/origin/master", 2)], "refs/heads/master", 1,
        [⟨1, "a", []⟩, ⟨2, "b", [1]⟩]⟩ "origin" false 5 false 0).state
      MASTER_REF = some 2 ∧
    (pull ⟨[("refs/heads/master", 1), ("refs/remotes/origin/master", 2)],
        "refs/heads/master", 1, [⟨1, "a", []⟩, ⟨2, "b", [1]⟩]⟩ "origin" false 5
        false 0).state.commits = [⟨1, "a", []⟩, ⟨2, "b", [1]⟩] := by
  have h := (pull_fastforward_behavior
    ⟨[("refs/heads/master", 1), ("refs/remotes/origin/master", 2)],
     "refs/heads/master", 1, [⟨1, "a", []⟩, ⟨2, "b", [1]⟩]⟩ "origin" false 5
    false 0 2 (by decide) (by decide) rfl).1 1 rfl rfl
  exact ⟨h.1, h.2.2.1, h.2.2.2.2.1⟩

end RepositoryLib
